import Mathlib

/-!
Verification of the TaxiFuel gridworld environment
(`gym_taxifuel/envs/taxifuel_env.py`).

The environment is a deterministic MDP over 5500 packed states:
`(taxi_row, taxi_col, passenger_location, destination, fuel)` with radices
`(5, 5, 5, 4, 11)`.  At construction the Python code enumerates the full
Cartesian product of components in lexicographic order and fills a transition
table `P[state][action]` with single `(probability, next_state, reward, done)`
outcomes, plus an initial-state distribution.

Below, every definition is a direct shallow embedding of the corresponding
Python code; theorems settle the spec claims about them.
-/

namespace TaxiFuel

/-- The fixed ASCII map, `MAP` in the source, as rows of characters. -/
def MAP : List (List Char) :=
  ["+---------+".toList,
   "|R: |F: :G|".toList,
   "| : | : : |".toList,
   "| : : : : |".toList,
   "| | : | : |".toList,
   "|Y| : |B: |".toList,
   "+---------+".toList]

/-- `self.locs = [(0,0), (0,4), (4,0), (4,3)]`. -/
def locs : List (ℕ × ℕ) := [(0, 0), (0, 4), (4, 0), (4, 3)]

/-- `self.fuel_station = (0,2)`. -/
def fuel_station : ℕ × ℕ := (0, 2)

/-- `self.desc[1 + row, 2 * col + 2] == b":"`: no wall east of `(row, col)`. -/
def eastOpen (row col : ℕ) : Bool :=
  (MAP.getD (1 + row) []).getD (2 * col + 2) ' ' == ':'

/-- `self.desc[1 + row, 2 * col] == b":"`: no wall west of `(row, col)`. -/
def westOpen (row col : ℕ) : Bool :=
  (MAP.getD (1 + row) []).getD (2 * col) ' ' == ':'

/-- `TaxiFuelEnv.encode`: mixed-radix packing with radices (5,5,5,4,11). -/
def encode (taxi_row taxi_col pass_loc dest_idx fuel : ℕ) : ℕ :=
  ((((taxi_row * 5 + taxi_col) * 5 + pass_loc) * 4 + dest_idx) * 11 + fuel)

/-- `TaxiFuelEnv.decode`: successive `%`/`//` by 11, 4, 5, 5; the list
is reversed so the result is `(taxi_row, taxi_col, pass_loc, dest_idx, fuel)`. -/
def decode (i : ℕ) : ℕ × ℕ × ℕ × ℕ × ℕ :=
  let fuel := i % 11
  let i := i / 11
  let dest_idx := i % 4
  let i := i / 4
  let pass_loc := i % 5
  let i := i / 5
  let taxi_col := i % 5
  let i := i / 5
  let taxi_row := i
  (taxi_row, taxi_col, pass_loc, dest_idx, fuel)

/-- `encode` applied to a decoded 5-tuple. -/
def encodeT (t : ℕ × ℕ × ℕ × ℕ × ℕ) : ℕ :=
  encode t.1 t.2.1 t.2.2.1 t.2.2.2.1 t.2.2.2.2

/-- The mutable loop locals of the transition-table construction:
`new_row, new_col, new_pass_idx, new_fuel, reward, done, moved`. -/
structure StepVars where
  new_row : ℕ
  new_col : ℕ
  new_pass_idx : ℕ
  new_fuel : ℕ
  reward : ℤ
  done : Bool
  moved : Bool
deriving DecidableEq, Repr

/-- The loop body of `TaxiFuelEnv.__init__` up to (but excluding) the final
`if moved:` block: the two `if/elif` chains updating the defaults
`new_row, new_col, new_pass_idx, new_fuel = row, col, pass_idx, fuel`,
`reward = -1`, `done = False`, `moved = False`.  In the source `moved` is set
to `True` only under a condition, starting from `False`, which is the same as
assigning the condition itself (the two chains act on disjoint actions). -/
def stepVars (row col pass_idx dest_idx fuel action : ℕ) : StepVars :=
  let max_row := 4
  let max_col := 4
  let taxi_loc := (row, col)
  let v : StepVars :=
    { new_row := row, new_col := col, new_pass_idx := pass_idx,
      new_fuel := fuel, reward := -1, done := false, moved := false }
  let v :=
    if action == 0 then
      { v with new_row := min (row + 1) max_row, moved := row != max_row }
    else if action == 1 then
      { v with new_row := row - 1, moved := row != 0 }
    else v
  if action == 2 && eastOpen row col then
    { v with new_col := min (col + 1) max_col, moved := col != max_col }
  else if action == 3 && westOpen row col then
    { v with new_col := col - 1, moved := col != 0 }
  else if action == 4 then
    if pass_idx < 4 && taxi_loc == locs.getD pass_idx (0, 0) then
      { v with new_pass_idx := 4 }
    else
      { v with reward := -10 }
  else if action == 5 then
    if taxi_loc == locs.getD dest_idx (0, 0) && pass_idx == 4 then
      { v with new_pass_idx := dest_idx, done := true, reward := 20 }
    else if locs.contains taxi_loc && pass_idx == 4 then
      { v with new_pass_idx := locs.indexOf taxi_loc }
    else
      { v with reward := -10 }
  else if action == 6 then
    if taxi_loc == fuel_station then
      { v with new_fuel := 10 }
    else
      { v with reward := -10 }
  else v

/-- One table entry `(1.0, new_state, reward, done)` for the given structured
state and action: `stepVars` followed by the source's final
`if moved: (if fuel == 0: reward = -10); new_fuel = max(0, fuel - 1)`
and `new_state = encode(new_row, new_col, new_pass_idx, dest_idx, new_fuel)`. -/
def outcome (row col pass_idx dest_idx fuel action : ℕ) : ℚ × ℕ × ℤ × Bool :=
  let v := stepVars row col pass_idx dest_idx fuel action
  let reward := if v.moved && fuel == 0 then (-10 : ℤ) else v.reward
  let new_fuel := if v.moved then fuel - 1 else v.new_fuel
  ((1 : ℚ), encode v.new_row v.new_col v.new_pass_idx dest_idx new_fuel, reward, v.done)

/-- `outcome` applied to a decoded 5-tuple. -/
def outcomeT (t : ℕ × ℕ × ℕ × ℕ × ℕ) (action : ℕ) : ℚ × ℕ × ℤ × Bool :=
  outcome t.1 t.2.1 t.2.2.1 t.2.2.2.1 t.2.2.2.2 action

/-- The structured states in the order the `__init__` loops visit them:
`row`, `col`, `pass_idx`, `dest_idx`, `fuel`, innermost last. -/
def loopDomain : List (ℕ × ℕ × ℕ × ℕ × ℕ) :=
  (List.range 5).flatMap fun row =>
    (List.range 5).flatMap fun col =>
      (List.range 5).flatMap fun pass_idx =>
        (List.range 4).flatMap fun dest_idx =>
          (List.range 11).map fun fuel => (row, col, pass_idx, dest_idx, fuel)

/-- The transition table `P[state][action]`: the loop appends
`(1.0, new_state, reward, done)` to `P[state][action]` once for every visited
structured state that encodes to `state`, for each `action in range(7)`. -/
def P (state action : ℕ) : List (ℚ × ℕ × ℤ × Bool) :=
  loopDomain.flatMap fun t =>
    if encodeT t = state ∧ action < 7 then [outcomeT t action] else []

/-- `if pass_idx < 4 and pass_idx != dest_idx and fuel == max_fuel`:
the guard under which `initial_state_distrib[state] += 1` runs. -/
def initCond (t : ℕ × ℕ × ℕ × ℕ × ℕ) : Bool :=
  t.2.2.1 < 4 && t.2.2.1 != t.2.2.2.1 && t.2.2.2.2 == 10

/-- Un-normalized weight of `state` in `initial_state_distrib`: the number of
visited structured states satisfying the guard that encode to `state`. -/
def initWeight (state : ℕ) : ℕ :=
  (loopDomain.filter fun t => initCond t && encodeT t == state).length

/-- `initial_state_distrib.sum()` over the 5500 entries. -/
def initTotal : ℕ := ((List.range 5500).map initWeight).sum

/-- The normalized initial-state distribution
(`initial_state_distrib /= initial_state_distrib.sum()`), as exact rationals. -/
def initProb (state : ℕ) : ℚ := (initWeight state : ℚ) / (initTotal : ℚ)

theorem decode_encode (r c p d f : ℕ)
    (hc : c < 5) (hp : p < 5) (hd : d < 4) (hf : f < 11) :
    decode (encode r c p d f) = (r, c, p, d, f) := by
  simp only [decode, encode, Prod.mk.injEq]
  omega

theorem encode_decode (i : ℕ) (hi : i < 5500) : encodeT (decode i) = i := by
  simp only [decode, encodeT, encode]
  omega

/-- A filter over a duplicate-free list keeps exactly one element when exactly
one element satisfies the predicate. -/
theorem filter_singleton_of {α : Type} (l : List α) (p : α → Bool) (x : α)
    (hnd : l.Nodup) (hx : x ∈ l) (hpx : p x = true)
    (huniq : ∀ y ∈ l, p y = true → y = x) :
    l.filter p = [x] := by
  induction l with
  | nil => cases hx
  | cons a t ih =>
    rcases List.mem_cons.1 hx with rfl | hx'
    · rw [List.filter_cons_of_pos hpx]
      have ht : t.filter p = [] := by
        refine List.filter_eq_nil_iff.2 fun y hy hpy => ?_
        have hyx : y = x := huniq y (List.mem_cons_of_mem x hy) hpy
        exact (List.nodup_cons.1 hnd).1 (hyx ▸ hy)
      rw [ht]
    · have hpa : ¬p a = true := by
        intro hpa
        have : a = x := huniq a (List.mem_cons_self a t) hpa
        exact (List.nodup_cons.1 hnd).1 (this ▸ hx')
      rw [List.filter_cons_of_neg hpa]
      exact ih (List.nodup_cons.1 hnd).2 hx'
        (fun y hy hpy => huniq y (List.mem_cons_of_mem a hy) hpy)

/-- Appending a singleton under a decidable guard is filtering then mapping. -/
theorem flatMap_if_singleton {α β : Type} (l : List α) (q : α → Prop)
    [DecidablePred q] (g : α → β) :
    (l.flatMap fun t => if q t then [g t] else []) =
      (l.filter fun t => decide (q t)).map g := by
  induction l with
  | nil => rfl
  | cons a t ih =>
    by_cases h : q a <;>
      simp [List.flatMap_cons, List.filter_cons, h, ih]

theorem mem_loopDomain {t : ℕ × ℕ × ℕ × ℕ × ℕ} :
    t ∈ loopDomain ↔
      t.1 < 5 ∧ t.2.1 < 5 ∧ t.2.2.1 < 5 ∧ t.2.2.2.1 < 4 ∧ t.2.2.2.2 < 11 := by
  obtain ⟨r, c, p, d, f⟩ := t
  simp only [loopDomain, List.mem_flatMap, List.mem_map, List.mem_range,
    Prod.mk.injEq]
  constructor
  · rintro ⟨row, hrow, col, hcol, p', hp, d', hd, f', hf, rfl, rfl, rfl, rfl, rfl⟩
    exact ⟨hrow, hcol, hp, hd, hf⟩
  · rintro ⟨h1, h2, h3, h4, h5⟩
    exact ⟨r, h1, c, h2, p, h3, d, h4, f, h5, rfl, rfl, rfl, rfl, rfl⟩

theorem loopDomain_nodup : loopDomain.Nodup := by
  unfold loopDomain
  refine List.nodup_flatMap.2 ⟨fun row _ => ?_, ?_⟩
  · refine List.nodup_flatMap.2 ⟨fun col _ => ?_, ?_⟩
    · refine List.nodup_flatMap.2 ⟨fun p _ => ?_, ?_⟩
      · refine List.nodup_flatMap.2 ⟨fun d _ => ?_, ?_⟩
        · exact List.Nodup.map (fun a b h => by simpa using h) (List.nodup_range 11)
          -- injectivity of the fuel-tupling map
            
        · refine (List.pairwise_lt_range 4).imp fun {a b} hab => ?_
          intro x hxa hxb
          simp only [List.mem_map, List.mem_range] at hxa hxb
          obtain ⟨f1, -, rfl⟩ := hxa
          obtain ⟨f2, -, h⟩ := hxb
          exact absurd (congrArg (fun t => t.2.2.2.1) h) (by simpa using hab.ne')
      · refine (List.pairwise_lt_range 5).imp fun {a b} hab => ?_
        intro x hxa hxb
        simp only [List.mem_flatMap, List.mem_map, List.mem_range] at hxa hxb
        obtain ⟨d1, -, f1, -, rfl⟩ := hxa
        obtain ⟨d2, -, f2, -, h⟩ := hxb
        exact absurd (congrArg (fun t => t.2.2.1) h) (by simpa using hab.ne')
    · refine (List.pairwise_lt_range 5).imp fun {a b} hab => ?_
      intro x hxa hxb
      simp only [List.mem_flatMap, List.mem_map, List.mem_range] at hxa hxb
      obtain ⟨p1, -, d1, -, f1, -, rfl⟩ := hxa
      obtain ⟨p2, -, d2, -, f2, -, h⟩ := hxb
      exact absurd (congrArg (fun t => t.2.1) h) (by simpa using hab.ne')
  · refine (List.pairwise_lt_range 5).imp fun {a b} hab => ?_
    intro x hxa hxb
    simp only [List.mem_flatMap, List.mem_map, List.mem_range] at hxa hxb
    obtain ⟨c1, -, p1, -, d1, -, f1, -, rfl⟩ := hxa
    obtain ⟨c2, -, p2, -, d2, -, f2, -, h⟩ := hxb
    exact absurd (congrArg (fun t => t.1) h) (by simpa using hab.ne')

theorem eq_decode_of_mem {t : ℕ × ℕ × ℕ × ℕ × ℕ} {s : ℕ}
    (ht : t ∈ loopDomain) (hts : encodeT t = s) : t = decode s := by
  obtain ⟨r, c, p, d, f⟩ := t
  obtain ⟨h1, h2, h3, h4, h5⟩ := mem_loopDomain.1 ht
  rw [← hts]
  exact (decode_encode r c p d f h2 h3 h4 h5).symm

theorem decode_mem {s : ℕ} (hs : s < 5500) : decode s ∈ loopDomain := by
  refine mem_loopDomain.2 ?_
  simp only [decode]
  omega

/-- The transition table lookup: for a valid state and action the entry list is
the singleton outcome of the decoded structured state. -/
theorem P_eq (s a : ℕ) (hs : s < 5500) (ha : a < 7) :
    P s a = [outcomeT (decode s) a] := by
  unfold P
  rw [flatMap_if_singleton, filter_singleton_of loopDomain _ (decode s)
    loopDomain_nodup (decode_mem hs)
    (by simp [encode_decode s hs, ha])
    (fun y hy hqy => by
      simp only [decide_eq_true_eq] at hqy
      exact eq_decode_of_mem hy hqy.1)]
  rfl

/-- The unique entry of `P s a` is a member of it. -/
theorem mem_P_self (s a : ℕ) (hs : s < 5500) (ha : a < 7) :
    outcomeT (decode s) a ∈ P s a := by
  rw [P_eq s a hs ha]
  exact List.mem_singleton_self _

theorem stepVars_zero (r c p d f : ℕ) :
    stepVars r c p d f 0 =
      ⟨min (r + 1) 4, c, p, f, -1, false, r != 4⟩ := rfl

theorem stepVars_one (r c p d f : ℕ) :
    stepVars r c p d f 1 =
      ⟨r - 1, c, p, f, -1, false, r != 0⟩ := rfl

theorem stepVars_two (r c p d f : ℕ) :
    stepVars r c p d f 2 =
      if eastOpen r c then ⟨r, min (c + 1) 4, p, f, -1, false, c != 4⟩
      else ⟨r, c, p, f, -1, false, false⟩ := rfl

theorem stepVars_three (r c p d f : ℕ) :
    stepVars r c p d f 3 =
      if westOpen r c then ⟨r, c - 1, p, f, -1, false, c != 0⟩
      else ⟨r, c, p, f, -1, false, false⟩ := rfl

theorem stepVars_four (r c p d f : ℕ) :
    stepVars r c p d f 4 =
      if p < 4 && (r, c) == locs.getD p (0, 0) then ⟨r, c, 4, f, -1, false, false⟩
      else ⟨r, c, p, f, -10, false, false⟩ := rfl

theorem stepVars_five (r c p d f : ℕ) :
    stepVars r c p d f 5 =
      if (r, c) == locs.getD d (0, 0) && p == 4 then
        ⟨r, c, d, f, 20, true, false⟩
      else if locs.contains (r, c) && p == 4 then
        ⟨r, c, locs.indexOf (r, c), f, -1, false, false⟩
      else ⟨r, c, p, f, -10, false, false⟩ := rfl

theorem stepVars_six (r c p d f : ℕ) :
    stepVars r c p d f 6 =
      if (r, c) == fuel_station then ⟨r, c, p, 10, -1, false, false⟩
      else ⟨r, c, p, f, -10, false, false⟩ := rfl

theorem stepVars_ge_seven (r c p d f n : ℕ) :
    stepVars r c p d f (n + 7) = ⟨r, c, p, f, -1, false, false⟩ := rfl

theorem outcome_prob (r c p d f a : ℕ) : (outcome r c p d f a).1 = 1 := rfl

theorem outcome_next (r c p d f a : ℕ) :
    (outcome r c p d f a).2.1 =
      encode (stepVars r c p d f a).new_row (stepVars r c p d f a).new_col
        (stepVars r c p d f a).new_pass_idx d
        (if (stepVars r c p d f a).moved then f - 1
         else (stepVars r c p d f a).new_fuel) := rfl

theorem outcome_reward (r c p d f a : ℕ) :
    (outcome r c p d f a).2.2.1 =
      if (stepVars r c p d f a).moved && f == 0 then -10
      else (stepVars r c p d f a).reward := rfl

theorem outcome_done (r c p d f a : ℕ) :
    (outcome r c p d f a).2.2.2 = (stepVars r c p d f a).done := rfl

theorem encode_lt_5500 (r c p d f : ℕ)
    (hr : r < 5) (hc : c < 5) (hp : p < 5) (hd : d < 4) (hf : f < 11) :
    encode r c p d f < 5500 := by
  unfold encode; omega

theorem stepVars_bounds (r c p d f a : ℕ)
    (hr : r < 5) (hc : c < 5) (hp : p < 5) (hd : d < 4) (hf : f < 11) :
    (stepVars r c p d f a).new_row < 5 ∧ (stepVars r c p d f a).new_col < 5 ∧
    (stepVars r c p d f a).new_pass_idx < 5 ∧
    (stepVars r c p d f a).new_fuel < 11 := by
  have hidx : locs.indexOf (r, c) ≤ 4 := by
    simp only [locs, List.indexOf_cons, cond_eq_if]
    split_ifs <;> norm_num [List.indexOf, List.findIdx, List.findIdx.go]
  rcases a with _|_|_|_|_|_|_|n
  all_goals norm_num [stepVars_zero, stepVars_one, stepVars_two, stepVars_three,
    stepVars_four, stepVars_five, stepVars_six, stepVars_ge_seven]
  all_goals try split_ifs
  all_goals try dsimp only
  all_goals omega

/-- Decoding the successor state gives back the updated structured fields. -/
theorem decode_next (r c p d f a : ℕ)
    (hr : r < 5) (hc : c < 5) (hp : p < 5) (hd : d < 4) (hf : f < 11) :
    decode (outcome r c p d f a).2.1 =
      ((stepVars r c p d f a).new_row, (stepVars r c p d f a).new_col,
       (stepVars r c p d f a).new_pass_idx, d,
       if (stepVars r c p d f a).moved then f - 1
       else (stepVars r c p d f a).new_fuel) := by
  obtain ⟨h1, h2, h3, h4⟩ := stepVars_bounds r c p d f a hr hc hp hd hf
  rw [outcome_next]
  exact decode_encode _ _ _ _ _ h2 h3 hd (by split_ifs <;> omega)

/-- `taxi_row` component of a packed state. -/
def taxiRow (s : ℕ) : ℕ := (decode s).1

/-- `taxi_col` component of a packed state. -/
def taxiCol (s : ℕ) : ℕ := (decode s).2.1

/-- `passenger_location` component of a packed state. -/
def passLoc (s : ℕ) : ℕ := (decode s).2.2.1

/-- `destination` component of a packed state. -/
def destIdx (s : ℕ) : ℕ := (decode s).2.2.2.1

/-- `fuel` component of a packed state. -/
def fuelOf (s : ℕ) : ℕ := (decode s).2.2.2.2

theorem decode_eta (s : ℕ) :
    decode s = (taxiRow s, taxiCol s, passLoc s, destIdx s, fuelOf s) := rfl

theorem decode_bounds (s : ℕ) (hs : s < 5500) :
    taxiRow s < 5 ∧ taxiCol s < 5 ∧ passLoc s < 5 ∧ destIdx s < 4 ∧
    fuelOf s < 11 := by
  simp only [taxiRow, taxiCol, passLoc, destIdx, fuelOf, decode]
  omega

theorem outcomeT_eq (t : ℕ × ℕ × ℕ × ℕ × ℕ) (a : ℕ) :
    outcomeT t a = outcome t.1 t.2.1 t.2.2.1 t.2.2.2.1 t.2.2.2.2 a := rfl

theorem outcomeT_decode (s a : ℕ) :
    outcomeT (decode s) a =
      outcome (taxiRow s) (taxiCol s) (passLoc s) (destIdx s) (fuelOf s) a := rfl

/-- C1: `encode` and `decode` form a bijection between structured states with
components in range (`taxi_row, taxi_col, passenger_location < 5`,
`destination < 4`, `fuel < 11`) and packed indices in `[0, 5500)`. -/
theorem encode_decode_bijection :
    (∀ r c p d f : ℕ, r < 5 → c < 5 → p < 5 → d < 4 → f < 11 →
      decode (encode r c p d f) = (r, c, p, d, f)) ∧
    (∀ i : ℕ, i < 5500 → encodeT (decode i) = i) :=
  ⟨fun r c p d f _ hc hp hd hf => decode_encode r c p d f hc hp hd hf,
   fun i hi => encode_decode i hi⟩

/-- Witness for C1 at the structured state `(3, 2, 4, 1, 7)` and index 1234. -/
theorem encode_decode_bijection_witness :
    decode (encode 3 2 4 1 7) = (3, 2, 4, 1, 7) ∧ encodeT (decode 1234) = 1234 :=
  ⟨encode_decode_bijection.1 3 2 4 1 7 (by decide) (by decide) (by decide)
    (by decide) (by decide),
   encode_decode_bijection.2 1234 (by decide)⟩

/-- C2: the transition table is complete — every packed state in `[0, 5500)`
and action in `{0, ..., 6}` has exactly one outcome tuple, whose probability
component is `1.0`. -/
theorem table_complete :
    ∀ s : ℕ, s < 5500 → ∀ a : ℕ, a < 7 →
      (P s a).length = 1 ∧ ∀ o ∈ P s a, o.1 = 1 := by
  intro s hs a ha
  rw [P_eq s a hs ha]
  exact ⟨rfl, fun o ho => by rw [List.mem_singleton.1 ho]; rfl⟩

/-- Witness for C2 at state 3210, action 4. -/
theorem table_complete_witness :
    (P 3210 4).length = 1 ∧ (outcomeT (decode 3210) 4).1 = 1 :=
  ⟨(table_complete 3210 (by norm_num) 4 (by norm_num)).1,
   (table_complete 3210 (by norm_num) 4 (by norm_num)).2 _
     (mem_P_self 3210 4 (by norm_num) (by norm_num))⟩

theorem outcome_reward_cases (r c p d f a : ℕ) (ha : a < 7) :
    (outcome r c p d f a).2.2.1 = -10 ∨ (outcome r c p d f a).2.2.1 = -1 ∨
    (outcome r c p d f a).2.2.1 = 20 := by
  interval_cases a <;>
    simp only [outcome_reward, stepVars_zero, stepVars_one, stepVars_two,
      stepVars_three, stepVars_four, stepVars_five, stepVars_six] <;>
    split_ifs <;> (try dsimp only) <;> decide

/-- C6: every reward in the transition table is −10, −1 or +20. -/
theorem rewards_in_range :
    ∀ s : ℕ, s < 5500 → ∀ a : ℕ, a < 7 → ∀ o ∈ P s a,
      o.2.2.1 = -10 ∨ o.2.2.1 = -1 ∨ o.2.2.1 = 20 := by
  intro s hs a ha o ho
  rw [P_eq s a hs ha, List.mem_singleton] at ho
  subst ho
  rw [outcomeT_decode]
  exact outcome_reward_cases _ _ _ _ _ a ha

/-- Witness for C6 at state 0, action 0. -/
theorem rewards_in_range_witness :
    (outcomeT (decode 0) 0).2.2.1 = -10 ∨ (outcomeT (decode 0) 0).2.2.1 = -1 ∨
    (outcomeT (decode 0) 0).2.2.1 = 20 :=
  rewards_in_range 0 (by norm_num) 0 (by norm_num) _
    (mem_P_self 0 0 (by norm_num) (by norm_num))

/-- C10: no action changes the destination component of the state. -/
theorem dest_unchanged :
    ∀ s : ℕ, s < 5500 → ∀ a : ℕ, a < 7 → ∀ o ∈ P s a,
      destIdx o.2.1 = destIdx s := by
  intro s hs a ha o ho
  rw [P_eq s a hs ha, List.mem_singleton] at ho
  subst ho
  obtain ⟨h1, h2, h3, h4, h5⟩ := decode_bounds s hs
  rw [outcomeT_decode]
  conv_lhs => rw [destIdx, decode_next _ _ _ _ _ a h1 h2 h3 h4 h5]

/-- Witness for C10 at state 4321, action 6. -/
theorem dest_unchanged_witness :
    destIdx (outcomeT (decode 4321) 6).2.1 = destIdx 4321 :=
  dest_unchanged 4321 (by norm_num) 6 (by norm_num) _
    (mem_P_self 4321 6 (by norm_num) (by norm_num))

/-- C9: every successor index in the table lies in `[0, 5500)` and its decoded
fuel component is at most 10 (in particular never negative, fuel being `ℕ`). -/
theorem successors_in_range :
    ∀ s : ℕ, s < 5500 → ∀ a : ℕ, a < 7 → ∀ o ∈ P s a,
      o.2.1 < 5500 ∧ fuelOf o.2.1 ≤ 10 := by
  intro s hs a ha o ho
  rw [P_eq s a hs ha, List.mem_singleton] at ho
  subst ho
  obtain ⟨h1, h2, h3, h4, h5⟩ := decode_bounds s hs
  obtain ⟨b1, b2, b3, b4⟩ :=
    stepVars_bounds (taxiRow s) (taxiCol s) (passLoc s) (destIdx s) (fuelOf s)
      a h1 h2 h3 h4 h5
  rw [outcomeT_decode]
  constructor
  · rw [outcome_next]
    exact encode_lt_5500 _ _ _ _ _ b1 b2 b3 h4 (by split_ifs <;> omega)
  · show (decode (outcome (taxiRow s) (taxiCol s) (passLoc s) (destIdx s)
      (fuelOf s) a).2.1).2.2.2.2 ≤ 10
    rw [decode_next _ _ _ _ _ a h1 h2 h3 h4 h5]
    dsimp only
    split_ifs <;> omega

/-- Witness for C9 at state 5499, action 0. -/
theorem successors_in_range_witness :
    (outcomeT (decode 5499) 0).2.1 < 5500 ∧
    fuelOf (outcomeT (decode 5499) 0).2.1 ≤ 10 :=
  successors_in_range 5499 (by norm_num) 0 (by norm_num) _
    (mem_P_self 5499 0 (by norm_num) (by norm_num))

theorem outcome_terminal_iff (r c p d f a : ℕ) (ha : a < 7) :
    ((outcome r c p d f a).2.2.2 = true ↔
      a = 5 ∧ p = 4 ∧ (r, c) = locs.getD d (0, 0)) ∧
    ((outcome r c p d f a).2.2.1 = 20 ↔
      a = 5 ∧ p = 4 ∧ (r, c) = locs.getD d (0, 0)) := by
  interval_cases a <;>
    simp only [outcome_reward, outcome_done, stepVars_zero, stepVars_one,
      stepVars_two, stepVars_three, stepVars_four, stepVars_five,
      stepVars_six] <;>
    split_ifs <;> (try dsimp only) <;>
    simp_all [Bool.and_eq_true, beq_iff_eq, decide_eq_true_eq] <;>
    tauto

/-- C3: a table entry is terminal exactly when the action is dropoff (5), the
passenger is in the taxi, and the taxi is at the destination location; the
reward is +20 exactly in that same case. -/
theorem terminal_iff_dropoff :
    ∀ s : ℕ, s < 5500 → ∀ a : ℕ, a < 7 → ∀ o ∈ P s a,
      (o.2.2.2 = true ↔
        a = 5 ∧ passLoc s = 4 ∧
          (taxiRow s, taxiCol s) = locs.getD (destIdx s) (0, 0)) ∧
      (o.2.2.1 = 20 ↔
        a = 5 ∧ passLoc s = 4 ∧
          (taxiRow s, taxiCol s) = locs.getD (destIdx s) (0, 0)) := by
  intro s hs a ha o ho
  rw [P_eq s a hs ha, List.mem_singleton] at ho
  subst ho
  rw [outcomeT_decode]
  exact outcome_terminal_iff _ _ _ _ _ a ha

/-- Witness for C3 at state 181 (taxi at R, passenger in taxi, destination R,
fuel 5), action 5: a successful dropoff. -/
theorem terminal_iff_dropoff_witness :
    ((outcomeT (decode 181) 5).2.2.2 = true ↔
      5 = 5 ∧ passLoc 181 = 4 ∧
        (taxiRow 181, taxiCol 181) = locs.getD (destIdx 181) (0, 0)) ∧
    ((outcomeT (decode 181) 5).2.2.1 = 20 ↔
      5 = 5 ∧ passLoc 181 = 4 ∧
        (taxiRow 181, taxiCol 181) = locs.getD (destIdx 181) (0, 0)) :=
  terminal_iff_dropoff 181 (by norm_num) 5 (by norm_num) _
    (mem_P_self 181 5 (by norm_num) (by norm_num))

/-- For a movement action, the reward variable stays −1, fuel/passenger are
copied through, `done` stays false, and the position is unchanged exactly when
`moved` is false. -/
theorem stepVars_move (r c p d f a : ℕ) (ha : a < 4) :
    (stepVars r c p d f a).reward = -1 ∧
    (stepVars r c p d f a).new_fuel = f ∧
    (stepVars r c p d f a).new_pass_idx = p ∧
    (stepVars r c p d f a).done = false ∧
    (((stepVars r c p d f a).new_row, (stepVars r c p d f a).new_col) = (r, c)
      ↔ (stepVars r c p d f a).moved = false) := by
  interval_cases a <;>
    simp only [stepVars_zero, stepVars_one, stepVars_two, stepVars_three] <;>
    (try split_ifs) <;>
    refine ⟨?_, ?_, ?_, ?_, ?_⟩ <;>
    (try trivial) <;>
    (try dsimp only) <;>
    (try simp [Prod.mk.injEq, bne_eq_false_iff_eq]) <;>
    omega

/-- Structured components of the successor state recorded for `(s, a)`. -/
theorem next_components (s a : ℕ) (hs : s < 5500) :
    taxiRow (outcome (taxiRow s) (taxiCol s) (passLoc s) (destIdx s)
        (fuelOf s) a).2.1 =
      (stepVars (taxiRow s) (taxiCol s) (passLoc s) (destIdx s)
        (fuelOf s) a).new_row ∧
    taxiCol (outcome (taxiRow s) (taxiCol s) (passLoc s) (destIdx s)
        (fuelOf s) a).2.1 =
      (stepVars (taxiRow s) (taxiCol s) (passLoc s) (destIdx s)
        (fuelOf s) a).new_col ∧
    passLoc (outcome (taxiRow s) (taxiCol s) (passLoc s) (destIdx s)
        (fuelOf s) a).2.1 =
      (stepVars (taxiRow s) (taxiCol s) (passLoc s) (destIdx s)
        (fuelOf s) a).new_pass_idx ∧
    fuelOf (outcome (taxiRow s) (taxiCol s) (passLoc s) (destIdx s)
        (fuelOf s) a).2.1 =
      (if (stepVars (taxiRow s) (taxiCol s) (passLoc s) (destIdx s)
            (fuelOf s) a).moved then fuelOf s - 1
       else (stepVars (taxiRow s) (taxiCol s) (passLoc s) (destIdx s)
            (fuelOf s) a).new_fuel) := by
  obtain ⟨h1, h2, h3, h4, h5⟩ := decode_bounds s hs
  have hdec := decode_next (taxiRow s) (taxiCol s) (passLoc s) (destIdx s)
    (fuelOf s) a h1 h2 h3 h4 h5
  refine ⟨?_, ?_, ?_, ?_⟩
  · show (decode _).1 = _
    rw [hdec]
  · show (decode _).2.1 = _
    rw [hdec]
  · show (decode _).2.2.1 = _
    rw [hdec]
  · show (decode _).2.2.2.2 = _
    rw [hdec]

/-- C4: a movement action that actually changes the taxi position consumes one
fuel unit with reward −1 when fuel is positive; with fuel 0 the reward is −10,
the successor fuel is clamped at 0, and the position still changes. -/
theorem moving_consumes_fuel :
    ∀ s : ℕ, s < 5500 → ∀ a : ℕ, a < 4 → ∀ o ∈ P s a,
      (taxiRow o.2.1, taxiCol o.2.1) ≠ (taxiRow s, taxiCol s) →
        (0 < fuelOf s → fuelOf o.2.1 = fuelOf s - 1 ∧ o.2.2.1 = -1) ∧
        (fuelOf s = 0 → o.2.2.1 = -10 ∧ fuelOf o.2.1 = 0 ∧
          (taxiRow o.2.1, taxiCol o.2.1) ≠ (taxiRow s, taxiCol s)) := by
  intro s hs a ha o ho
  have ha7 : a < 7 := by omega
  rw [P_eq s a hs ha7, List.mem_singleton] at ho
  subst ho
  rw [outcomeT_decode]
  obtain ⟨hR, hC, hP, hF⟩ := next_components s a hs
  rw [hR, hC, hF, outcome_reward]
  intro hchg
  obtain ⟨hrw, hfl, hpp, hdn, hiff⟩ :=
    stepVars_move (taxiRow s) (taxiCol s) (passLoc s) (destIdx s) (fuelOf s)
      a ha
  have hmoved : (stepVars (taxiRow s) (taxiCol s) (passLoc s) (destIdx s)
      (fuelOf s) a).moved = true := by
    cases hm : (stepVars (taxiRow s) (taxiCol s) (passLoc s) (destIdx s)
        (fuelOf s) a).moved with
    | false => exact absurd (hiff.2 hm) hchg
    | true => rfl
  rw [hmoved, hrw]
  constructor
  · intro hfpos
    have h0 : (fuelOf s == 0) = false := beq_eq_false_iff_ne.2 (by omega)
    rw [h0]
    exact ⟨rfl, rfl⟩
  · intro hf0
    have h0 : (fuelOf s == 0) = true := beq_iff_eq.2 hf0
    rw [h0]
    exact ⟨rfl, by rw [if_pos rfl]; omega, hchg⟩

/-- Witness for C4: state 0 (taxi at (0,0), fuel 0), action 0 (south): the
position changes while fuel is empty. -/
theorem moving_consumes_fuel_witness :
    (0 < fuelOf 0 →
      fuelOf (outcomeT (decode 0) 0).2.1 = fuelOf 0 - 1 ∧
      (outcomeT (decode 0) 0).2.2.1 = -1) ∧
    (fuelOf 0 = 0 →
      (outcomeT (decode 0) 0).2.2.1 = -10 ∧
      fuelOf (outcomeT (decode 0) 0).2.1 = 0 ∧
      (taxiRow (outcomeT (decode 0) 0).2.1, taxiCol (outcomeT (decode 0) 0).2.1)
        ≠ (taxiRow 0, taxiCol 0)) :=
  moving_consumes_fuel 0 (by norm_num) 0 (by norm_num) _
    (mem_P_self 0 0 (by norm_num) (by norm_num)) (by decide)

/-- At the west border the west move never counts as movement. -/
theorem stepVars_west_border (r c p d f : ℕ) (hc : c = 0) :
    (stepVars r c p d f 3).new_col = c ∧
    (stepVars r c p d f 3).moved = false := by
  subst hc
  rw [stepVars_three]
  split_ifs <;> exact ⟨rfl, rfl⟩

/-- C7: a movement action that does not change the taxi position leaves
position and fuel unchanged, with reward −1 and `done = false`; in particular
a west move from column 0 leaves column and fuel unchanged with reward −1. -/
theorem blocked_move_noop :
    ∀ s : ℕ, s < 5500 → ∀ a : ℕ, a < 4 → ∀ o ∈ P s a,
      ((taxiRow o.2.1, taxiCol o.2.1) = (taxiRow s, taxiCol s) →
        taxiRow o.2.1 = taxiRow s ∧ taxiCol o.2.1 = taxiCol s ∧
        fuelOf o.2.1 = fuelOf s ∧ o.2.2.1 = -1 ∧ o.2.2.2 = false) ∧
      (a = 3 → taxiCol s = 0 →
        taxiCol o.2.1 = taxiCol s ∧ fuelOf o.2.1 = fuelOf s ∧
        o.2.2.1 = -1) := by
  intro s hs a ha o ho
  have ha7 : a < 7 := by omega
  rw [P_eq s a hs ha7, List.mem_singleton] at ho
  subst ho
  rw [outcomeT_decode]
  obtain ⟨hR, hC, hP, hF⟩ := next_components s a hs
  rw [hR, hC, hF, outcome_reward, outcome_done]
  obtain ⟨hrw, hfl, hpp, hdn, hiff⟩ :=
    stepVars_move (taxiRow s) (taxiCol s) (passLoc s) (destIdx s) (fuelOf s)
      a ha
  constructor
  · intro hsame
    have hm : (stepVars (taxiRow s) (taxiCol s) (passLoc s) (destIdx s)
        (fuelOf s) a).moved = false := hiff.1 hsame
    rw [hm, hfl, hrw, hdn]
    obtain ⟨e1, e2⟩ := Prod.mk.injEq .. ▸ hsame
    exact ⟨e1, e2, rfl, rfl, rfl⟩
  · intro ha3 hc0
    subst ha3
    obtain ⟨w1, w2⟩ := stepVars_west_border (taxiRow s) (taxiCol s) (passLoc s)
      (destIdx s) (fuelOf s) hc0
    rw [w1, w2, hfl, hrw]
    exact ⟨rfl, rfl, rfl⟩

/-- Witness for C7: state 0 (taxi at (0,0)), action 3 (west): blocked at the
west border. -/
theorem blocked_move_noop_witness :
    ((taxiRow (outcomeT (decode 0) 3).2.1, taxiCol (outcomeT (decode 0) 3).2.1)
        = (taxiRow 0, taxiCol 0) →
      taxiRow (outcomeT (decode 0) 3).2.1 = taxiRow 0 ∧
      taxiCol (outcomeT (decode 0) 3).2.1 = taxiCol 0 ∧
      fuelOf (outcomeT (decode 0) 3).2.1 = fuelOf 0 ∧
      (outcomeT (decode 0) 3).2.2.1 = -1 ∧
      (outcomeT (decode 0) 3).2.2.2 = false) ∧
    (3 = 3 → taxiCol 0 = 0 →
      taxiCol (outcomeT (decode 0) 3).2.1 = taxiCol 0 ∧
      fuelOf (outcomeT (decode 0) 3).2.1 = fuelOf 0 ∧
      (outcomeT (decode 0) 3).2.2.1 = -1) :=
  blocked_move_noop 0 (by norm_num) 3 (by norm_num) _
    (mem_P_self 0 3 (by norm_num) (by norm_num))

/-- C8: dropoff with the passenger in the taxi at a named location other than
the destination's location releases the passenger there (the successor's
passenger component is that location's index), with reward −1 and
`done = false`. -/
theorem dropoff_wrong_location :
    ∀ s : ℕ, s < 5500 → ∀ o ∈ P s 5,
      passLoc s = 4 → (taxiRow s, taxiCol s) ∈ locs →
      (taxiRow s, taxiCol s) ≠ locs.getD (destIdx s) (0, 0) →
        passLoc o.2.1 = locs.indexOf (taxiRow s, taxiCol s) ∧
        o.2.2.1 = -1 ∧ o.2.2.2 = false := by
  intro s hs o ho hp4 hmem hne
  rw [P_eq s 5 hs (by norm_num), List.mem_singleton] at ho
  subst ho
  rw [outcomeT_decode]
  obtain ⟨hR, hC, hP, hF⟩ := next_components s 5 hs
  rw [hP, outcome_reward, outcome_done]
  have hsv : stepVars (taxiRow s) (taxiCol s) (passLoc s) (destIdx s)
      (fuelOf s) 5 =
      ⟨taxiRow s, taxiCol s, locs.indexOf (taxiRow s, taxiCol s), fuelOf s,
        -1, false, false⟩ := by
    rw [stepVars_five]
    rw [if_neg ?_, if_pos ?_]
    · simp only [Bool.and_eq_true, beq_iff_eq]
      refine ⟨?_, hp4⟩
      simp only [List.contains, List.elem_iff]
      exact hmem
    · simp only [Bool.and_eq_true, beq_iff_eq, not_and]
      intro h
      exact absurd h hne
  rw [hsv]
  exact ⟨rfl, rfl, rfl⟩

/-- Witness for C8: state 1060 (taxi at G = (0,4), passenger in taxi,
destination R, fuel 4), action 5. -/
theorem dropoff_wrong_location_witness :
    passLoc (outcomeT (decode 1060) 5).2.1 =
      locs.indexOf (taxiRow 1060, taxiCol 1060) ∧
    (outcomeT (decode 1060) 5).2.2.1 = -1 ∧
    (outcomeT (decode 1060) 5).2.2.2 = false :=
  dropoff_wrong_location 1060 (by norm_num) _
    (mem_P_self 1060 5 (by norm_num) (by norm_num))
    (by decide) (by decide) (by decide)

theorem initWeight_eq (s : ℕ) (hs : s < 5500) :
    initWeight s = if initCond (decode s) = true then 1 else 0 := by
  unfold initWeight
  by_cases h : initCond (decode s) = true
  · have hfil : loopDomain.filter (fun t => initCond t && (encodeT t == s)) =
        [decode s] := by
      refine filter_singleton_of _ _ _ loopDomain_nodup (decode_mem hs) ?_ ?_
      · simp [h, encode_decode s hs]
      · intro y hy hqy
        simp only [Bool.and_eq_true, beq_iff_eq] at hqy
        exact eq_decode_of_mem hy hqy.2
    rw [hfil, if_pos h]
    rfl
  · have hfil : loopDomain.filter (fun t => initCond t && (encodeT t == s)) =
        [] := by
      refine List.filter_eq_nil_iff.2 ?_
      intro y hy hqy
      simp only [Bool.and_eq_true, beq_iff_eq] at hqy
      exact h (eq_decode_of_mem hy hqy.2 ▸ hqy.1)
    rw [hfil, if_neg h]
    rfl

/-- Splitting a sum over `range (m + n)` into the first `m` and last `n`. -/
theorem sum_range_chunk (f : ℕ → ℕ) (m n : ℕ) :
    ((List.range (m + n)).map f).sum =
      ((List.range m).map f).sum +
      ((List.range n).map fun j => f (m + j)).sum := by
  rw [List.range_add, List.map_append, List.sum_append, List.map_map]
  rfl

set_option maxRecDepth 10000 in
/-- `initial_state_distrib.sum()` is 300: there are 25 taxi positions and 12
valid (passenger, destination) pairs at full fuel. -/
theorem initTotal_eq : initTotal = 300 := by
  have hcongr : (List.range 5500).map initWeight =
      (List.range 5500).map
        (fun s => if initCond (decode s) = true then 1 else 0) :=
    List.map_congr_left fun s hsm => initWeight_eq s (List.mem_range.1 hsm)
  rw [initTotal, hcongr]
  rw [show (5500 : ℕ) = 5000 + 500 from rfl, sum_range_chunk]
  rw [show (5000 : ℕ) = 4500 + 500 from rfl, sum_range_chunk]
  rw [show (4500 : ℕ) = 4000 + 500 from rfl, sum_range_chunk]
  rw [show (4000 : ℕ) = 3500 + 500 from rfl, sum_range_chunk]
  rw [show (3500 : ℕ) = 3000 + 500 from rfl, sum_range_chunk]
  rw [show (3000 : ℕ) = 2500 + 500 from rfl, sum_range_chunk]
  rw [show (2500 : ℕ) = 2000 + 500 from rfl, sum_range_chunk]
  rw [show (2000 : ℕ) = 1500 + 500 from rfl, sum_range_chunk]
  rw [show (1500 : ℕ) = 1000 + 500 from rfl, sum_range_chunk]
  rw [show (1000 : ℕ) = 500 + 500 from rfl, sum_range_chunk]
  rfl

theorem list_sum_map_div (l : List ℕ) (f : ℕ → ℕ) (c : ℚ) :
    (l.map fun s => (f s : ℚ) / c).sum = (((l.map f).sum : ℕ) : ℚ) / c := by
  induction l with
  | nil => simp
  | cons a t ih =>
    simp only [List.map_cons, List.sum_cons, ih, Nat.cast_add, add_div]

theorem initCond_decode_iff (s : ℕ) :
    initCond (decode s) = true ↔
      fuelOf s = 10 ∧ passLoc s < 4 ∧ passLoc s ≠ destIdx s := by
  simp only [initCond, passLoc, destIdx, fuelOf, Bool.and_eq_true,
    decide_eq_true_eq, bne_iff_ne, beq_iff_eq]
  tauto

/-- C5: the initial-state distribution is the uniform probability `1/300` on
states with full fuel, passenger outside the taxi and distinct from the
destination; it is zero on every other state, and sums to 1. -/
theorem initial_distribution :
    (∀ s : ℕ, s < 5500 →
      ((fuelOf s = 10 ∧ passLoc s < 4 ∧ passLoc s ≠ destIdx s) →
        initProb s = 1 / 300) ∧
      (¬(fuelOf s = 10 ∧ passLoc s < 4 ∧ passLoc s ≠ destIdx s) →
        initProb s = 0)) ∧
    ((List.range 5500).map initProb).sum = 1 := by
  constructor
  · intro s hs
    constructor
    · intro hcond
      rw [initProb, initWeight_eq s hs, if_pos ((initCond_decode_iff s).2 hcond),
        initTotal_eq]
      norm_num
    · intro hcond
      rw [initProb, initWeight_eq s hs,
        if_neg (fun h => hcond ((initCond_decode_iff s).1 h)), initTotal_eq]
      norm_num
  · rw [show (List.range 5500).map initProb =
        (List.range 5500).map
          (fun s => ((initWeight s : ℕ) : ℚ) / ((initTotal : ℕ) : ℚ)) from rfl,
      list_sum_map_div]
    show ((initTotal : ℕ) : ℚ) / ((initTotal : ℕ) : ℚ) = 1
    rw [initTotal_eq]
    norm_num

/-- Witness for C5 at the eligible state 21, which decodes to
`(0, 0, 0, 1, 10)`, and the ineligible state 0 (fuel 0). -/
theorem initial_distribution_witness :
    ((fuelOf 21 = 10 ∧ passLoc 21 < 4 ∧ passLoc 21 ≠ destIdx 21) →
      initProb 21 = 1 / 300) ∧
    (¬(fuelOf 0 = 10 ∧ passLoc 0 < 4 ∧ passLoc 0 ≠ destIdx 0) →
      initProb 0 = 0) :=
  ⟨(initial_distribution.1 21 (by norm_num)).1,
   (initial_distribution.1 0 (by norm_num)).2⟩

end TaxiFuel
